import Mathlib

/-!
Verification development for the vision-query adapter of exif-photo-blog
(`src/platforms/openai.ts`, in the variant that validates and normalizes
provider base URLs via `normalizeBaseUrl`).

The adapter is shallowly embedded: module-level constants that read the
environment become functions of an explicit `Config`; the external URL
library (`new URL`), the rate limiter, and the provider SDK calls are
modelled explicitly, with provider responses supplied as oracle
parameters; each query operation returns the ordered list of external
effects it performs (rate-limit check, provider request) together with its
outcome (`Except` for thrown errors).
-/

namespace ExifPhotoBlog

/-! ### Model of the external WHATWG URL library

`new URL(u)` for an `http`/`https` URL is modelled as splitting the input
into scheme, host (everything up to the first `/`, `?` or `#`; parsing
fails when it is empty, as `new URL("http://")` throws), pathname (always
beginning with `/`; defaulted to `/` when absent, as the URL class does),
and the query/fragment remainder.  `toString` re-serializes the
components in order. -/

def isHostEnd (c : Char) : Bool := c == '/' || c == '?' || c == '#'

def isPathEnd (c : Char) : Bool := c == '?' || c == '#'

def httpPrefixL : List Char := ['h', 't', 't', 'p', ':', '/', '/']

def httpsPrefixL : List Char := ['h', 't', 't', 'p', 's', ':', '/', '/']

structure URL where
  secure : Bool
  host : List Char
  pathname : List Char
  rest : List Char
deriving DecidableEq, Repr

def schemeChars (secure : Bool) : List Char :=
  if secure then httpsPrefixL else httpPrefixL

def URL.toList (u : URL) : List Char :=
  schemeChars u.secure ++ (u.host ++ (u.pathname ++ u.rest))

def URL.toString (u : URL) : String := String.mk u.toList

def parseBody (body : List Char) : Option (List Char × List Char × List Char) :=
  let host := body.takeWhile (fun c => !isHostEnd c)
  let rem := body.dropWhile (fun c => !isHostEnd c)
  if host.isEmpty then none
  else
    match rem with
    | [] => some (host, ['/'], [])
    | c :: _ =>
      if c == '/' then
        some (host, rem.takeWhile (fun c => !isPathEnd c), rem.dropWhile (fun c => !isPathEnd c))
      else
        some (host, ['/'], rem)

def parseURLList (l : List Char) : Option URL :=
  if decide (httpsPrefixL <+: l) then
    (parseBody (l.drop httpsPrefixL.length)).map (fun x => ⟨true, x.1, x.2.1, x.2.2⟩)
  else if decide (httpPrefixL <+: l) then
    (parseBody (l.drop httpPrefixL.length)).map (fun x => ⟨false, x.1, x.2.1, x.2.2⟩)
  else none

def parseURL (s : String) : Option URL := parseURLList s.data

/-! ### JS string helpers -/

/-- JS truthiness of an optional environment string: `undefined` and the
empty string are falsy. -/
def truthy : Option String → Bool
  | none => false
  | some s => !s.data.isEmpty

/-- Model of JS `String.prototype.includes`. -/
def includesStr (s sub : String) : Bool := decide (sub.data <:+: s.data)

/-! ### `normalizeBaseUrl` -/

inductive Provider where
  | deepseek
  | openai
deriving DecidableEq, Repr

def providerName : Option Provider → String
  | some Provider.deepseek => "deepseek"
  | some Provider.openai => "openai"
  | none => "undefined"

def warnMissingProtocol (p : Option Provider) (u : String) : String :=
  "Invalid " ++ providerName p ++ " base URL (missing protocol): " ++ u

def warnParseError (p : Option Provider) (u : String) : String :=
  "Invalid " ++ providerName p ++ " base URL (parse error): " ++ u

def v1L : List Char := ['/', 'v', '1']

/-- `parsed.pathname.endsWith('/') ? parsed.pathname + 'v1' : parsed.pathname + '/v1'`. -/
def newDeepseekPath (p : List Char) : List Char :=
  if decide (['/'] <:+ p) then p ++ ['v', '1'] else p ++ ['/', 'v', '1']

/-- `normalizeBaseUrl(url?, provider?)`: returns the normalized URL (or
`none` when the input is absent, empty, lacks an `http`/`https` protocol,
or fails URL parsing) together with the list of `console.warn` messages
emitted. -/
def normalizeBaseUrl (url : Option String) (provider : Option Provider) :
    Option String × List String :=
  match url with
  | none => (none, [])
  | some u =>
    if u.data.isEmpty then (none, [])
    else if !(decide (httpPrefixL <+: u.data)) && !(decide (httpsPrefixL <+: u.data)) then
      (none, [warnMissingProtocol provider u])
    else
      match parseURL u with
      | none => (none, [warnParseError provider u])
      | some parsed =>
        if provider == some Provider.deepseek && !(decide (v1L <:+ parsed.pathname)) then
          (some (URL.toString { parsed with pathname := newDeepseekPath parsed.pathname }), [])
        else (some u, [])

/-! ### Provider selection -/

/-- The environment values the module reads from `@/app/config`. -/
structure Config where
  OPENAI_BASE_URL : Option String
  OPENAI_SECRET_KEY : Option String
  DEEPSEEK_API_KEY : Option String
  DEEPSEEK_BASE_URL : Option String
deriving DecidableEq, Repr

def normalizedDeepseekBaseUrl (cfg : Config) : Option String :=
  (normalizeBaseUrl cfg.DEEPSEEK_BASE_URL (some Provider.deepseek)).1

def normalizedOpenaiBaseUrl (cfg : Config) : Option String :=
  (normalizeBaseUrl cfg.OPENAI_BASE_URL (some Provider.openai)).1

/-- `IS_DEEPSEEK = DEEPSEEK_API_KEY && !!normalizedDeepseekBaseUrl`. -/
def IS_DEEPSEEK (cfg : Config) : Bool :=
  truthy cfg.DEEPSEEK_API_KEY && (normalizedDeepseekBaseUrl cfg).isSome

def OPENAI_MODEL : String := "gpt-5.1"

def DEEPSEEK_MODEL : String := "deepseek-chat"

/-- `safeOpenaiBaseUrl`: the normalized OpenAI base URL, discarded when it
mentions the other provider. -/
def safeOpenaiBaseUrl (cfg : Config) : Option String :=
  match normalizedOpenaiBaseUrl cfg with
  | some u => if !u.data.isEmpty && !includesStr u "deepseek" then some u else none
  | none => none

inductive ClientKind where
  | openaiClient
  | deepseekClient
deriving DecidableEq, Repr

/-- A created SDK client: which factory made it and with what options. -/
structure ClientHandle where
  kind : ClientKind
  apiKey : String
  baseURL : Option String
deriving DecidableEq, Repr

/-- `const openai = OPENAI_SECRET_KEY ? createOpenAI({...}) : undefined`. -/
def openaiHandle (cfg : Config) : Option ClientHandle :=
  if truthy cfg.OPENAI_SECRET_KEY then
    some ⟨ClientKind.openaiClient, cfg.OPENAI_SECRET_KEY.getD "", safeOpenaiBaseUrl cfg⟩
  else none

/-- `const deepseek = DEEPSEEK_API_KEY && normalizedDeepseekBaseUrl ? createDeepSeek({...}) : undefined`. -/
def deepseekHandle (cfg : Config) : Option ClientHandle :=
  if truthy cfg.DEEPSEEK_API_KEY && (normalizedDeepseekBaseUrl cfg).isSome then
    some ⟨ClientKind.deepseekClient, cfg.DEEPSEEK_API_KEY.getD "", normalizedDeepseekBaseUrl cfg⟩
  else none

/-- `const aiClient = IS_DEEPSEEK ? deepseek : openai`. -/
def aiClient (cfg : Config) : Option ClientHandle :=
  if IS_DEEPSEEK cfg then deepseekHandle cfg else openaiHandle cfg

/-- `const MODEL = IS_DEEPSEEK ? DEEPSEEK_MODEL : OPENAI_MODEL`. -/
def MODEL (cfg : Config) : String :=
  if IS_DEEPSEEK cfg then DEEPSEEK_MODEL else OPENAI_MODEL

/-! ### Rate limiting -/

/-- The options object the wrapper passes to the external
`checkRateLimitAndThrow` collaborator:
`{ identifier: 'openai-image-query', ...isBatch && { tokens: 1200, duration: '1d' } }`.
The limiter itself is external; whether it throws is an oracle parameter
of each operation. -/
structure RateLimitOptions where
  identifier : String
  tokens : Option Nat
  duration : Option String
deriving DecidableEq, Repr

def checkRateLimitAndThrow (isBatch : Option Bool) : RateLimitOptions :=
  if isBatch == some true then ⟨"openai-image-query", some 1200, some "1d"⟩
  else ⟨"openai-image-query", none, none⟩

/-! ### Request construction -/

/-- Modelled from the spec: `removeBase64Prefix` from `@/utility/image` is
not part of the sources here; per the spec the request builder "strips any
transport-encoding prefix from the image" so that "a base64 string with a
known data-URL prefix arrives at the request builder stripped of that
prefix".  We model the known data-URL prefix `data:image/<subtype>;base64,`
(nonempty lowercase-ASCII subtype) being removed when present, with any
other input passed through unchanged. -/
def isAsciiLower (c : Char) : Bool := 'a' ≤ c && c ≤ 'z'

def dataImageMarkL : List Char :=
  ['d', 'a', 't', 'a', ':', 'i', 'm', 'a', 'g', 'e', '/']

def base64MarkL : List Char := [';', 'b', 'a', 's', 'e', '6', '4', ',']

def stripDataUrl (l : List Char) : Option (List Char) :=
  if decide (dataImageMarkL <+: l) then
    let t := l.drop dataImageMarkL.length
    let mime := t.takeWhile isAsciiLower
    let r := t.dropWhile isAsciiLower
    if mime.isEmpty then none
    else if decide (base64MarkL <+: r) then some (r.drop base64MarkL.length)
    else none
  else none

def removeBase64Prefix (s : String) : String :=
  match stripDataUrl s.data with
  | some r => String.mk r
  | none => s

inductive ContentPart where
  | text (t : String)
  | image (data : String)
deriving DecidableEq, Repr

structure Message where
  role : String
  content : List ContentPart
deriving DecidableEq, Repr

/-- `aiClient(MODEL)`: the model reference handed to the SDK call. -/
structure ModelRef where
  client : ClientHandle
  modelId : String
deriving DecidableEq, Repr

/-- The request descriptor shared by `generateText`, `streamText` and
`generateObject` (the caller-supplied schema of the structured path is
opaque and omitted). -/
structure RequestArgs where
  model : ModelRef
  messages : List Message
deriving DecidableEq, Repr

def imageTextMessages (cfg : Config) (c : ClientHandle) (imageBase64 query : String) :
    RequestArgs :=
  { model := ⟨c, MODEL cfg⟩,
    messages := [⟨"user",
      [ContentPart.text query, ContentPart.image ( removeBase64Prefix imageBase64)]⟩] }

/-- `getImageTextArgs`: `aiClient ? { model: aiClient(MODEL), messages: [...] } : undefined`. -/
def getImageTextArgs (cfg : Config) (imageBase64 query : String) : Option RequestArgs :=
  match aiClient cfg with
  | some c => some (imageTextMessages cfg c imageBase64 query)
  | none => none

/-! ### Query operations

Each operation is embedded as a function from the configuration, the
text-cleanup collaborator `clean` (`cleanUpAiTextResponse`, external to
this module), the rate-limiter verdict `rlOk` (`false` means the external
limiter throws), and the provider's response, to the ordered list of
external effects performed and the outcome. -/

inductive ProviderCall where
  | genText (args : RequestArgs)
  | strText (args : RequestArgs)
  | genObject (args : RequestArgs)
deriving DecidableEq, Repr

inductive Event where
  | rateLimit (opts : RateLimitOptions)
  | provider (call : ProviderCall)
deriving DecidableEq, Repr

def Event.isProviderCall : Event → Bool
  | Event.provider _ => true
  | _ => false

inductive QueryError where
  | rateLimited
  | noClient
deriving DecidableEq, Repr

def noClientMessage : String := "No AI client available"

/-- The message of a thrown error: `new Error('No AI client available')`
for the unconfigured structured path; the rate limiter's own message is
owned by the external collaborator. -/
def QueryError.message : QueryError → Option String
  | QueryError.noClient => some noClientMessage
  | QueryError.rateLimited => none

/-- The observable state of the `createStreamableValue('')` stream: its
initial value, every update pushed (in order), and whether `done` was
called. -/
structure StreamState where
  initial : String
  updates : List String
  closed : Bool
deriving DecidableEq, Repr

/-- `streamOpenAiImageQuery`: rate-limit check (no batch budget), then,
when a client is configured, a `streamText` request whose deltas are each
cleaned and pushed; with no client the untouched, never-closed stream is
returned. -/
def streamOpenAiImageQuery (cfg : Config) (clean : String → String)
    (rlOk : Bool) (deltas : List String) (imageBase64 query : String) :
    List Event × Except QueryError StreamState :=
  let ev := [Event.rateLimit (checkRateLimitAndThrow none)]
  if rlOk then
    match getImageTextArgs cfg imageBase64 query with
    | some args =>
      (ev ++ [Event.provider (ProviderCall.strText args)],
        Except.ok ⟨"", deltas.map clean, true⟩)
    | none => (ev, Except.ok ⟨"", [], false⟩)
  else (ev, Except.error QueryError.rateLimited)

/-- `generateOpenAiImageQuery`: rate-limit check (budget iff `isBatch`),
then, when a client is configured, a `generateText` request whose text is
cleaned; with no client the function resolves with `undefined`. -/
def generateOpenAiImageQuery (cfg : Config) (clean : String → String)
    (rlOk : Bool) (responseText : String) (imageBase64 query : String)
    (isBatch : Option Bool) :
    List Event × Except QueryError (Option String) :=
  let ev := [Event.rateLimit (checkRateLimitAndThrow isBatch)]
  if rlOk then
    match getImageTextArgs cfg imageBase64 query with
    | some args =>
      (ev ++ [Event.provider (ProviderCall.genText args)],
        Except.ok (some (clean responseText)))
    | none => (ev, Except.ok none)
  else (ev, Except.error QueryError.rateLimited)

/-- `generateOpenAiImageObjectQuery`: rate-limit check (budget iff
`isBatch`), then, when a client is configured, a `generateObject` request;
`result.object` (`none` models a null/undefined object) is defaulted to
`{}` and every entry value is cleaned.  With no client it throws
`new Error('No AI client available')`. -/
def generateOpenAiImageObjectQuery (cfg : Config) (clean : String → String)
    (rlOk : Bool) (resultObject : Option (List (String × String)))
    (imageBase64 query : String) (isBatch : Option Bool) :
    List Event × Except QueryError (List (String × String)) :=
  let ev := [Event.rateLimit (checkRateLimitAndThrow isBatch)]
  if rlOk then
    match aiClient cfg with
    | some c =>
      (ev ++ [Event.provider (ProviderCall.genObject (imageTextMessages cfg c imageBase64 query))],
        Except.ok ((resultObject.getD []).map (fun kv => (kv.1, clean kv.2))))
    | none => (ev, Except.error QueryError.noClient)
  else (ev, Except.error QueryError.rateLimited)

/-- `testOpenAiConnection`: rate-limit check (no batch budget), then, when
a client is configured, a text-only `generateText` request whose raw
result is returned; with no client it resolves with `undefined`. -/
def testOpenAiConnection (cfg : Config) (rlOk : Bool) (responseText : String) :
    List Event × Except QueryError (Option String) :=
  let ev := [Event.rateLimit (checkRateLimitAndThrow none)]
  if rlOk then
    match aiClient cfg with
    | some c =>
      (ev ++ [Event.provider (ProviderCall.genText
          { model := ⟨c, MODEL cfg⟩,
            messages := [⟨"user", [ContentPart.text "Test connection"]⟩] })],
        Except.ok (some responseText))
    | none => (ev, Except.ok none)
  else (ev, Except.error QueryError.rateLimited)

/-! ### List helper lemmas -/

theorem takeWhile_append_all {p : Char → Bool} {l₁ : List Char} (l₂ : List Char)
    (h : ∀ a ∈ l₁, p a = true) :
    (l₁ ++ l₂).takeWhile p = l₁ ++ l₂.takeWhile p := by
  induction l₁ with
  | nil => simp
  | cons a t ih =>
    have ha : p a = true := h a (List.mem_cons_self a t)
    simp only [List.cons_append, List.takeWhile_cons, ha, if_true]
    rw [ih (fun b hb => h b (List.mem_cons_of_mem a hb))]

theorem dropWhile_append_all {p : Char → Bool} {l₁ : List Char} (l₂ : List Char)
    (h : ∀ a ∈ l₁, p a = true) :
    (l₁ ++ l₂).dropWhile p = l₂.dropWhile p := by
  induction l₁ with
  | nil => simp
  | cons a t ih =>
    have ha : p a = true := h a (List.mem_cons_self a t)
    simp only [List.cons_append, List.dropWhile_cons, ha, if_true]
    exact ih (fun b hb => h b (List.mem_cons_of_mem a hb))

theorem dropWhile_head_false (p : Char → Bool) (l : List Char) :
    l.dropWhile p = [] ∨ ∃ c t, l.dropWhile p = c :: t ∧ p c = false := by
  induction l with
  | nil => exact Or.inl rfl
  | cons a t ih =>
    by_cases ha : p a = true
    · rw [List.dropWhile_cons, if_pos ha]
      exact ih
    · rw [List.dropWhile_cons, if_neg ha]
      exact Or.inr ⟨a, t, rfl, Bool.not_eq_true _ ▸ Bool.of_not_eq_true ha⟩

/-! ### Parser inversion and round-trip -/

/-- The shape invariant of every URL the parser produces. -/
def URLinv (u : URL) : Prop :=
  u.host ≠ [] ∧ (∀ c ∈ u.host, isHostEnd c = false) ∧
  (∃ t, u.pathname = '/' :: t) ∧ (∀ c ∈ u.pathname, isPathEnd c = false) ∧
  (u.rest = [] ∨ ∃ c t, u.rest = c :: t ∧ isPathEnd c = true)

theorem parseBody_inv {body h p r : List Char}
    (hb : parseBody body = some (h, p, r)) :
    h ≠ [] ∧ (∀ c ∈ h, isHostEnd c = false) ∧
    (∃ t, p = '/' :: t) ∧ (∀ c ∈ p, isPathEnd c = false) ∧
    (r = [] ∨ ∃ c t, r = c :: t ∧ isPathEnd c = true) := by
  unfold parseBody at hb
  dsimp only at hb
  set host := body.takeWhile (fun c => !isHostEnd c) with hhost
  set rem := body.dropWhile (fun c => !isHostEnd c) with hrem
  have hostchars : ∀ c ∈ host, isHostEnd c = false := by
    intro c hc
    simpa using List.mem_takeWhile_imp hc
  have remhead : rem = [] ∨ ∃ c t, rem = c :: t ∧ isHostEnd c = true := by
    rcases dropWhile_head_false (fun c => !isHostEnd c) body with h0 | ⟨c, t, hct, hc⟩
    · exact Or.inl h0
    · exact Or.inr ⟨c, t, hct, by simpa using hc⟩
  clear_value host rem
  split at hb
  · exact absurd hb (by simp)
  · rename_i hne
    have hostne : host ≠ [] := fun hnil => hne (by rw [hnil]; rfl)
    split at hb
    · simp only [Option.some.injEq, Prod.mk.injEq] at hb
      obtain ⟨h1, h2, h3⟩ := hb
      subst h1; subst h2; subst h3
      refine ⟨hostne, hostchars, ⟨[], rfl⟩, ?_, Or.inl rfl⟩
      intro c hc
      have : c = '/' := by simpa using hc
      subst this
      decide
    · rename_i rem0 c t
      by_cases hc : (c == '/') = true
      · rw [if_pos hc] at hb
        simp only [Option.some.injEq, Prod.mk.injEq] at hb
        obtain ⟨h1, h2, h3⟩ := hb
        subst h1; subst h2; subst h3
        have hcq : c = '/' := by simpa using hc
        refine ⟨hostne, hostchars, ?_, ?_, ?_⟩
        · subst hcq
          rw [List.takeWhile_cons]
          have hpe : isPathEnd '/' = false := by decide
          simp only [hpe, Bool.not_false, if_true]
          exact ⟨t.takeWhile (fun c => !isPathEnd c), rfl⟩
        · intro d hd
          simpa using List.mem_takeWhile_imp hd
        · rcases dropWhile_head_false (fun c => !isPathEnd c) (c :: t) with h0 | ⟨d, s, hds, hdval⟩
          · exact Or.inl h0
          · exact Or.inr ⟨d, s, hds, by simpa using hdval⟩
      · rw [if_neg hc] at hb
        simp only [Option.some.injEq, Prod.mk.injEq] at hb
        obtain ⟨h1, h2, h3⟩ := hb
        subst h1; subst h2; subst h3
        have hchost : isHostEnd c = true := by
          rcases remhead with h0 | ⟨d, s, hds, hdval⟩
          · cases h0
          · injection hds with hds1 hds2
            rw [hds1]; exact hdval
        have hcpath : isPathEnd c = true := by
          have hcne : (c == '/') = false := by
            cases hq : (c == '/') with
            | true => exact absurd hq hc
            | false => rfl
          unfold isHostEnd at hchost
          unfold isPathEnd
          rw [hcne] at hchost
          simpa using hchost
        refine ⟨hostne, hostchars, ⟨[], rfl⟩, ?_, Or.inr ⟨c, t, rfl, hcpath⟩⟩
        intro d hd
        have : d = '/' := by simpa using hd
        subst this
        decide

theorem parseBody_append {host path rest : List Char}
    (hh : host ≠ []) (hhc : ∀ c ∈ host, isHostEnd c = false)
    (hp : ∃ t, path = '/' :: t) (hpc : ∀ c ∈ path, isPathEnd c = false)
    (hr : rest = [] ∨ ∃ c t, rest = c :: t ∧ isPathEnd c = true) :
    parseBody (host ++ (path ++ rest)) = some (host, path, rest) := by
  obtain ⟨pt, hpt⟩ := hp
  have hslash : isHostEnd '/' = true := by decide
  have htake : (host ++ (path ++ rest)).takeWhile (fun c => !isHostEnd c) = host := by
    rw [takeWhile_append_all (path ++ rest) (fun a ha => by rw [hhc a ha]; rfl)]
    rw [hpt, List.cons_append, List.takeWhile_cons]
    simp [hslash]
  have hdrop : (host ++ (path ++ rest)).dropWhile (fun c => !isHostEnd c) = path ++ rest := by
    rw [dropWhile_append_all (path ++ rest) (fun a ha => by rw [hhc a ha]; rfl)]
    rw [hpt, List.cons_append, List.dropWhile_cons]
    simp [hslash]
  have htrest : rest.takeWhile (fun c => !isPathEnd c) = [] := by
    rcases hr with h0 | ⟨c, t, hct, hcv⟩
    · rw [h0]; rfl
    · rw [hct, List.takeWhile_cons]; simp [hcv]
  have hdrest : rest.dropWhile (fun c => !isPathEnd c) = rest := by
    rcases hr with h0 | ⟨c, t, hct, hcv⟩
    · rw [h0]; rfl
    · rw [hct, List.dropWhile_cons]; simp [hcv]
  have htake2 : (path ++ rest).takeWhile (fun c => !isPathEnd c) = path := by
    rw [takeWhile_append_all rest (fun a ha => by rw [hpc a ha]; rfl), htrest, List.append_nil]
  have hdrop2 : (path ++ rest).dropWhile (fun c => !isPathEnd c) = rest := by
    rw [dropWhile_append_all rest (fun a ha => by rw [hpc a ha]; rfl), hdrest]
  unfold parseBody
  dsimp only
  rw [htake, hdrop]
  rw [if_neg (show ¬(host.isEmpty = true) from fun habs => hh (List.isEmpty_iff.mp habs))]
  rw [hpt, List.cons_append]
  dsimp only
  rw [if_pos (show (('/' : Char) == '/') = true by decide)]
  rw [← List.cons_append, ← hpt, htake2, hdrop2]

theorem not_https_of_http (l : List Char) : ¬ (httpsPrefixL <+: httpPrefixL ++ l) := by
  rintro ⟨r, hr⟩
  simp only [httpsPrefixL, httpPrefixL, List.cons_append, List.nil_append, List.cons.injEq] at hr
  exact absurd hr.2.2.2.2.1 (by decide)

theorem not_http_of_https (l : List Char) : ¬ (httpPrefixL <+: httpsPrefixL ++ l) := by
  rintro ⟨r, hr⟩
  simp only [httpPrefixL, httpsPrefixL, List.cons_append, List.nil_append, List.cons.injEq] at hr
  exact absurd hr.2.2.2.2.1 (by decide)

theorem parseURLList_inv {l : List Char} {u : URL} (h : parseURLList l = some u) :
    URLinv u := by
  unfold parseURLList at h
  split at h
  · match hb : parseBody (l.drop httpsPrefixL.length) with
    | none => rw [hb] at h; cases h
    | some x =>
      rw [hb] at h
      obtain ⟨hst, pth, rst⟩ := x
      injection h with h
      obtain ⟨h1, h2, h3, h4, h5⟩ := parseBody_inv hb
      subst h
      exact ⟨h1, h2, h3, h4, h5⟩
  · split at h
    · match hb : parseBody (l.drop httpPrefixL.length) with
      | none => rw [hb] at h; cases h
      | some x =>
        rw [hb] at h
        obtain ⟨hst, pth, rst⟩ := x
        injection h with h
        obtain ⟨h1, h2, h3, h4, h5⟩ := parseBody_inv hb
        subst h
        exact ⟨h1, h2, h3, h4, h5⟩
    · cases h

theorem parseURLList_toList {u : URL} (h : URLinv u) :
    parseURLList u.toList = some u := by
  obtain ⟨h1, h2, h3, h4, h5⟩ := h
  cases hu : u.secure with
  | true =>
    have hlist : u.toList = httpsPrefixL ++ (u.host ++ (u.pathname ++ u.rest)) := by
      unfold URL.toList schemeChars
      rw [hu, if_pos rfl]
    unfold parseURLList
    rw [hlist]
    rw [if_pos (decide_eq_true ( List.prefix_append httpsPrefixL _))]
    rw [List.drop_left]
    rw [parseBody_append h1 h2 h3 h4 h5]
    cases u with
    | mk sec hst pth rst =>
      simp only [Option.map_some]
      cases hu
      rfl
  | false =>
    have hlist : u.toList = httpPrefixL ++ (u.host ++ (u.pathname ++ u.rest)) := by
      unfold URL.toList schemeChars
      rw [hu, if_neg (by simp)]
    unfold parseURLList
    rw [hlist]
    rw [if_neg (by simpa using not_https_of_http (u.host ++ (u.pathname ++ u.rest)))]
    rw [if_pos (decide_eq_true ( List.prefix_append httpPrefixL _))]
    rw [List.drop_left]
    rw [parseBody_append h1 h2 h3 h4 h5]
    cases u with
    | mk sec hst pth rst =>
      simp only [Option.map_some]
      cases hu
      rfl

theorem v1_suffix_newDeepseekPath (p : List Char) : v1L <:+ newDeepseekPath p := by
  unfold newDeepseekPath
  by_cases h : (['/'] : List Char) <:+ p
  · rw [if_pos (decide_eq_true h)]
    obtain ⟨q, hq⟩ := h
    exact ⟨q, by rw [← hq, List.append_assoc]; rfl⟩
  · rw [if_neg (by simpa using h)]
    exact ⟨p, rfl⟩

theorem URLinv_update {u : URL} (h : URLinv u) :
    URLinv { u with pathname := newDeepseekPath u.pathname } := by
  obtain ⟨h1, h2, ⟨t, ht⟩, h4, h5⟩ := h
  refine ⟨h1, h2, ?_, ?_, h5⟩
  · unfold newDeepseekPath
    by_cases hc : (['/'] : List Char) <:+ u.pathname
    · rw [if_pos (decide_eq_true hc), ht, List.cons_append]
      exact ⟨t ++ ['v', '1'], rfl⟩
    · rw [if_neg (by simpa using hc), ht, List.cons_append]
      exact ⟨t ++ ['/', 'v', '1'], rfl⟩
  · intro c hc
    unfold newDeepseekPath at hc
    by_cases hs : (['/'] : List Char) <:+ u.pathname
    · rw [if_pos (decide_eq_true hs)] at hc
      rcases List.mem_append.mp hc with hm | hm
      · exact h4 c hm
      · have : c = 'v' ∨ c = '1' := by simpa using hm
        rcases this with h0 | h0 <;> (subst h0; decide)
    · rw [if_neg (by simpa using hs)] at hc
      rcases List.mem_append.mp hc with hm | hm
      · exact h4 c hm
      · have : c = '/' ∨ c = 'v' ∨ c = '1' := by simpa using hm
        rcases this with h0 | h0 | h0 <;> (subst h0; decide)

theorem scheme_of_toList (u : URL) :
    (httpPrefixL <+: u.toList) ∨ (httpsPrefixL <+: u.toList) := by
  unfold URL.toList schemeChars
  cases hs : u.secure with
  | true => exact Or.inr (by rw [if_pos rfl]; exact List.prefix_append _ _)
  | false => exact Or.inl (by rw [if_neg (by simp)]; exact List.prefix_append _ _)

theorem toList_ne_nil (u : URL) : u.toList ≠ [] := by
  rcases scheme_of_toList u with ⟨r, hr⟩ | ⟨r, hr⟩ <;>
    (intro h0; rw [h0] at hr; exact absurd hr (by simp [httpPrefixL, httpsPrefixL]))

/-! ### Characterizations of `normalizeBaseUrl` -/

theorem parse_some_scheme {u : String} {P : URL} (hp : parseURL u = some P) :
    (httpsPrefixL <+: u.data) ∨ (httpPrefixL <+: u.data) := by
  unfold parseURL parseURLList at hp
  by_cases h1 : httpsPrefixL <+: u.data
  · exact Or.inl h1
  · rw [if_neg (by simpa using h1)] at hp
    by_cases h2 : httpPrefixL <+: u.data
    · exact Or.inr h2
    · rw [if_neg (by simpa using h2)] at hp
      cases hp

theorem parse_some_ne_nil {u : String} {P : URL} (hp : parseURL u = some P) :
    u.data ≠ [] := by
  rcases parse_some_scheme hp with ⟨r, hr⟩ | ⟨r, hr⟩ <;>
    (intro h0; rw [h0] at hr; exact absurd hr (by simp [httpPrefixL, httpsPrefixL]))

theorem normalizeBaseUrl_parse_some {u : String} {P : URL} (prov : Option Provider)
    (hp : parseURL u = some P) :
    normalizeBaseUrl (some u) prov =
      if prov == some Provider.deepseek && !(decide (v1L <:+ P.pathname)) then
        (some (URL.toString { P with pathname := newDeepseekPath P.pathname }), [])
      else (some u, []) := by
  have hne := parse_some_ne_nil hp
  have hguard : (!(decide (httpPrefixL <+: u.data)) && !(decide (httpsPrefixL <+: u.data))) = false := by
    rcases parse_some_scheme hp with h | h <;> (rw [decide_eq_true h]; simp)
  unfold normalizeBaseUrl
  dsimp only
  rw [if_neg (show ¬(u.data.isEmpty = true) from fun habs => hne (List.isEmpty_iff.mp habs))]
  rw [if_neg (show ¬(_ = true) from fun habs => by rw [hguard] at habs; cases habs)]
  rw [hp]

theorem normalizeBaseUrl_parse_none {u : String} (prov : Option Provider)
    (hp : parseURL u = none) :
    (normalizeBaseUrl (some u) prov).1 = none := by
  unfold normalizeBaseUrl
  dsimp only
  split
  · rfl
  · split
    · rfl
    · rw [hp]

theorem normalizeBaseUrl_parse_none_warn {u : String} (prov : Option Provider)
    (hu : u.data ≠ []) (hp : parseURL u = none) :
    ∃ w, normalizeBaseUrl (some u) prov = (none, [w]) := by
  unfold normalizeBaseUrl
  dsimp only
  rw [if_neg (show ¬(u.data.isEmpty = true) from fun habs => hu (List.isEmpty_iff.mp habs))]
  by_cases hg : (!(decide (httpPrefixL <+: u.data)) && !(decide (httpsPrefixL <+: u.data))) = true
  · rw [if_pos hg]
    exact ⟨warnMissingProtocol prov u, rfl⟩
  · rw [if_neg hg, hp]
    exact ⟨warnParseError prov u, rfl⟩

/-! ### Congruence helpers -/

theorem aiClient_congr {c1 c2 : Config}
    (hok : c1.OPENAI_SECRET_KEY = c2.OPENAI_SECRET_KEY)
    (hdk : c1.DEEPSEEK_API_KEY = c2.DEEPSEEK_API_KEY)
    (hnob : normalizedOpenaiBaseUrl c1 = normalizedOpenaiBaseUrl c2)
    (hnds : normalizedDeepseekBaseUrl c1 = normalizedDeepseekBaseUrl c2) :
    aiClient c1 = aiClient c2 ∧ MODEL c1 = MODEL c2 := by
  unfold aiClient MODEL IS_DEEPSEEK deepseekHandle openaiHandle safeOpenaiBaseUrl
  rw [hok, hdk, hnob, hnds]
  exact ⟨rfl, rfl⟩

theorem getImageTextArgs_congr {c1 c2 : Config}
    (hA : aiClient c1 = aiClient c2) (hM : MODEL c1 = MODEL c2)
    (img q : String) :
    getImageTextArgs c1 img q = getImageTextArgs c2 img q := by
  unfold getImageTextArgs imageTextMessages
  rw [hA, hM]

theorem ops_congr {c1 c2 : Config}
    (hA : aiClient c1 = aiClient c2) (hM : MODEL c1 = MODEL c2)
    (clean : String → String) (rlOk : Bool) (deltas : List String) (txt : String)
    (obj : Option (List (String × String))) (img q : String) (isBatch : Option Bool)
    (resp : String) :
    streamOpenAiImageQuery c1 clean rlOk deltas img q =
      streamOpenAiImageQuery c2 clean rlOk deltas img q ∧
    generateOpenAiImageQuery c1 clean rlOk txt img q isBatch =
      generateOpenAiImageQuery c2 clean rlOk txt img q isBatch ∧
    generateOpenAiImageObjectQuery c1 clean rlOk obj img q isBatch =
      generateOpenAiImageObjectQuery c2 clean rlOk obj img q isBatch ∧
    testOpenAiConnection c1 rlOk resp = testOpenAiConnection c2 rlOk resp := by
  have hg := getImageTextArgs_congr hA hM img q
  refine ⟨?_, ?_, ?_, ?_⟩
  · unfold streamOpenAiImageQuery
    rw [hg]
  · unfold generateOpenAiImageQuery
    rw [hg]
  · unfold generateOpenAiImageObjectQuery imageTextMessages
    rw [hA, hM]
  · unfold testOpenAiConnection
    rw [hA, hM]

/-! ### `stripDataUrl` computation -/

theorem stripDataUrl_append {mime rest : List Char} (hm : mime ≠ [])
    (hlow : ∀ ch ∈ mime, isAsciiLower ch = true) :
    stripDataUrl (dataImageMarkL ++ (mime ++ (base64MarkL ++ rest))) = some rest := by
  have hmark : base64MarkL ++ rest = ';' :: (['b', 'a', 's', 'e', '6', '4', ','] ++ rest) := rfl
  have hsemi : isAsciiLower ';' = false := by decide
  have htake : (mime ++ (base64MarkL ++ rest)).takeWhile isAsciiLower = mime := by
    rw [takeWhile_append_all _ hlow, hmark, List.takeWhile_cons, hsemi]
    simp
  have hdrop : (mime ++ (base64MarkL ++ rest)).dropWhile isAsciiLower = base64MarkL ++ rest := by
    rw [dropWhile_append_all _ hlow, hmark, List.dropWhile_cons, hsemi]
    simp
  unfold stripDataUrl
  rw [if_pos (decide_eq_true ( List.prefix_append _ _))]
  dsimp only
  rw [List.drop_left, htake, hdrop]
  rw [if_neg (show ¬(mime.isEmpty = true) from fun habs => hm (List.isEmpty_iff.mp habs))]
  rw [if_pos (decide_eq_true ( List.prefix_append _ _))]
  rw [List.drop_left]

/-- Claim C8: `normalizeBaseUrl` is idempotent: for every input string (or
absent input) and every provider tag, applying `normalizeBaseUrl` to its own
output yields the same result as applying it once. -/
theorem C8_normalizeBaseUrl_idempotent (url : Option String) (prov : Option Provider) :
    (normalizeBaseUrl (normalizeBaseUrl url prov).1 prov).1 =
      (normalizeBaseUrl url prov).1 := by
  match url with
  | none => rfl
  | some u =>
    match hp : parseURL u with
    | none =>
      rw [normalizeBaseUrl_parse_none prov hp]
      rfl
    | some P =>
      have hchar := normalizeBaseUrl_parse_some prov hp
      by_cases hds : (prov == some Provider.deepseek && !(decide (v1L <:+ P.pathname))) = true
      · rw [hchar, if_pos hds]
        show (normalizeBaseUrl
            (some (URL.toString { P with pathname := newDeepseekPath P.pathname })) prov).1 =
          some (URL.toString { P with pathname := newDeepseekPath P.pathname })
        have hinv : URLinv { P with pathname := newDeepseekPath P.pathname } :=
          URLinv_update (parseURLList_inv hp)
        have hparse2 : parseURL (URL.toString { P with pathname := newDeepseekPath P.pathname }) =
            some { P with pathname := newDeepseekPath P.pathname } :=
          parseURLList_toList hinv
        rw [normalizeBaseUrl_parse_some prov hparse2]
        have hsuf : decide (v1L <:+ ({ P with pathname := newDeepseekPath P.pathname } : URL).pathname) = true :=
          decide_eq_true (v1_suffix_newDeepseekPath P.pathname)
        rw [hsuf]
        simp
      · rw [hchar, if_neg hds]
        show (normalizeBaseUrl (some u) prov).1 = some u
        rw [normalizeBaseUrl_parse_some prov hp, if_neg hds]

/-- Claim C7: for every well-formed DeepSeek base URL, the normalized URL's
path ends with `/v1`: if the given path already ends with `/v1` the URL is
returned unchanged, otherwise `v1` (after a trailing slash) or `/v1` is
appended to the path. -/
theorem C7_deepseek_path_normalization {u : String} {P : URL}
    (hp : parseURL u = some P) :
    ∃ r, (normalizeBaseUrl (some u) (some Provider.deepseek)).1 = some r ∧
      (∃ Q, parseURL r = some Q ∧ v1L <:+ Q.pathname) ∧
      (v1L <:+ P.pathname → r = u) ∧
      (¬(v1L <:+ P.pathname) →
        r = URL.toString { P with pathname := newDeepseekPath P.pathname }) := by
  have hchar := normalizeBaseUrl_parse_some (some Provider.deepseek) hp
  by_cases hv : v1L <:+ P.pathname
  · refine ⟨u, ?_, ⟨P, hp, hv⟩, fun _ => rfl, fun h => absurd hv h⟩
    rw [hchar, if_neg (show ¬((some Provider.deepseek == some Provider.deepseek &&
      !(decide (v1L <:+ P.pathname))) = true) from by simp [hv])]
  · have hinv : URLinv { P with pathname := newDeepseekPath P.pathname } :=
      URLinv_update (parseURLList_inv hp)
    have hparse2 : parseURL (URL.toString { P with pathname := newDeepseekPath P.pathname }) =
        some { P with pathname := newDeepseekPath P.pathname } :=
      parseURLList_toList hinv
    refine ⟨URL.toString { P with pathname := newDeepseekPath P.pathname }, ?_,
      ⟨{ P with pathname := newDeepseekPath P.pathname }, hparse2,
        v1_suffix_newDeepseekPath P.pathname⟩,
      fun h => absurd h hv, fun _ => rfl⟩
    rw [hchar, if_pos (show (some Provider.deepseek == some Provider.deepseek &&
      !(decide (v1L <:+ P.pathname))) = true from by simp [hv])]

/-- Witness for C7 at the concrete well-formed URL `http://d`. -/
theorem C7_witness :
    ∃ r, (normalizeBaseUrl (some "http://d") (some Provider.deepseek)).1 = some r ∧
      (∃ Q, parseURL r = some Q ∧ v1L <:+ Q.pathname) ∧
      (v1L <:+ (URL.mk false ['d'] ['/'] []).pathname → r = "http://d") ∧
      (¬(v1L <:+ (URL.mk false ['d'] ['/'] []).pathname) →
        r = URL.toString { URL.mk false ['d'] ['/'] [] with
          pathname := newDeepseekPath (URL.mk false ['d'] ['/'] []).pathname }) :=
  C7_deepseek_path_normalization (by decide)

/-- Claim C1: when only the secondary provider (DeepSeek) is fully
configured the active client is the DeepSeek client; when only the primary
provider (OpenAI) is configured the active client is the OpenAI client;
when neither is configured the active client is undefined, so every query
operation either returns nothing or throws the no-client error. -/
theorem C1_provider_selection (cfg : Config) (clean : String → String)
    (deltas : List String) (txt : String) (obj : Option (List (String × String)))
    (img q : String) (isBatch : Option Bool) :
    (truthy cfg.DEEPSEEK_API_KEY = true → (normalizedDeepseekBaseUrl cfg).isSome = true →
      truthy cfg.OPENAI_SECRET_KEY = false →
      aiClient cfg = some ⟨ClientKind.deepseekClient, cfg.DEEPSEEK_API_KEY.getD "",
        normalizedDeepseekBaseUrl cfg⟩) ∧
    (truthy cfg.OPENAI_SECRET_KEY = true → truthy cfg.DEEPSEEK_API_KEY = false →
      aiClient cfg = some ⟨ClientKind.openaiClient, cfg.OPENAI_SECRET_KEY.getD "",
        safeOpenaiBaseUrl cfg⟩) ∧
    (truthy cfg.OPENAI_SECRET_KEY = false → truthy cfg.DEEPSEEK_API_KEY = false →
      aiClient cfg = none ∧
      (streamOpenAiImageQuery cfg clean true deltas img q).2 = Except.ok ⟨"", [], false⟩ ∧
      (generateOpenAiImageQuery cfg clean true txt img q isBatch).2 = Except.ok none ∧
      (generateOpenAiImageObjectQuery cfg clean true obj img q isBatch).2 =
        Except.error QueryError.noClient ∧
      QueryError.noClient.message = some noClientMessage) := by
  refine ⟨?_, ?_, ?_⟩
  · intro h1 h2 _
    unfold aiClient IS_DEEPSEEK deepseekHandle
    rw [h1, h2]
    rfl
  · intro h1 h2
    unfold aiClient IS_DEEPSEEK deepseekHandle openaiHandle
    rw [h1, h2]
    rfl
  · intro h1 h2
    have hnone : aiClient cfg = none := by
      unfold aiClient IS_DEEPSEEK deepseekHandle openaiHandle
      rw [h1, h2]
      rfl
    refine ⟨hnone, ?_, ?_, ?_, rfl⟩
    · simp [streamOpenAiImageQuery, getImageTextArgs, hnone]
    · simp [generateOpenAiImageQuery, getImageTextArgs, hnone]
    · simp [generateOpenAiImageObjectQuery, hnone]

/-- Witness for C1 at three concrete configurations: DeepSeek-only,
OpenAI-only, and neither. -/
theorem C1_witness :
    aiClient ⟨none, none, some "dk", some "http://d"⟩ =
      some ⟨ClientKind.deepseekClient, "dk",
        normalizedDeepseekBaseUrl ⟨none, none, some "dk", some "http://d"⟩⟩ ∧
    aiClient ⟨none, some "ok", none, none⟩ =
      some ⟨ClientKind.openaiClient, "ok", safeOpenaiBaseUrl ⟨none, some "ok", none, none⟩⟩ ∧
    aiClient ⟨none, none, none, none⟩ = none ∧
    (generateOpenAiImageObjectQuery ⟨none, none, none, none⟩ id true none "" "" none).2 =
      Except.error QueryError.noClient :=
  ⟨(C1_provider_selection ⟨none, none, some "dk", some "http://d"⟩ id [] "" none "" "" none).1
      (by decide) (by decide) (by decide),
   (C1_provider_selection ⟨none, some "ok", none, none⟩ id [] "" none "" "" none).2.1
      (by decide) (by decide),
   ((C1_provider_selection ⟨none, none, none, none⟩ id [] "" none "" "" none).2.2
      (by decide) (by decide)).1,
   (((C1_provider_selection ⟨none, none, none, none⟩ id [] "" none "" "" none).2.2
      (by decide) (by decide)).2.2.2).1⟩

/-- Claim C2: when no provider is configured (`aiClient` undefined),
`generateOpenAiImageQuery` resolves with nothing, `streamOpenAiImageQuery`
returns the untouched, never-closed stream, and
`generateOpenAiImageObjectQuery` throws an error whose message is
`No AI client available`. -/
theorem C2_no_client_semantics (cfg : Config) (clean : String → String)
    (deltas : List String) (txt : String) (obj : Option (List (String × String)))
    (img q : String) (isBatch : Option Bool)
    (h : aiClient cfg = none) :
    streamOpenAiImageQuery cfg clean true deltas img q =
      ([Event.rateLimit (checkRateLimitAndThrow none)], Except.ok ⟨"", [], false⟩) ∧
    generateOpenAiImageQuery cfg clean true txt img q isBatch =
      ([Event.rateLimit (checkRateLimitAndThrow isBatch)], Except.ok none) ∧
    generateOpenAiImageObjectQuery cfg clean true obj img q isBatch =
      ([Event.rateLimit (checkRateLimitAndThrow isBatch)], Except.error QueryError.noClient) ∧
    QueryError.noClient.message = some "No AI client available" := by
  refine ⟨?_, ?_, ?_, rfl⟩
  · simp [streamOpenAiImageQuery, getImageTextArgs, h]
  · simp [generateOpenAiImageQuery, getImageTextArgs, h]
  · simp [generateOpenAiImageObjectQuery, h]

/-- Witness for C2 at the empty configuration. -/
theorem C2_witness :
    streamOpenAiImageQuery ⟨none, none, none, none⟩ id true ["d"] "i" "q" =
      ([Event.rateLimit (checkRateLimitAndThrow none)], Except.ok ⟨"", [], false⟩) ∧
    generateOpenAiImageQuery ⟨none, none, none, none⟩ id true "t" "i" "q" none =
      ([Event.rateLimit (checkRateLimitAndThrow none)], Except.ok none) ∧
    generateOpenAiImageObjectQuery ⟨none, none, none, none⟩ id true none "i" "q" none =
      ([Event.rateLimit (checkRateLimitAndThrow none)], Except.error QueryError.noClient) ∧
    QueryError.noClient.message = some "No AI client available" :=
  C2_no_client_semantics ⟨none, none, none, none⟩ id ["d"] "t" none "i" "q" none rfl

/-- Claim C3: every query operation performs the rate-limit check first,
and when the limiter throws the operation rethrows with no provider
request (`generateText`, `streamText`, `generateObject`) ever made. -/
theorem C3_rate_limit_before_provider (cfg : Config) (clean : String → String)
    (rlOk : Bool) (deltas : List String) (txt : String)
    (obj : Option (List (String × String))) (img q : String) (isBatch : Option Bool) :
    ((streamOpenAiImageQuery cfg clean rlOk deltas img q).1.head? =
        some (Event.rateLimit (checkRateLimitAndThrow none)) ∧
      (generateOpenAiImageQuery cfg clean rlOk txt img q isBatch).1.head? =
        some (Event.rateLimit (checkRateLimitAndThrow isBatch)) ∧
      (generateOpenAiImageObjectQuery cfg clean rlOk obj img q isBatch).1.head? =
        some (Event.rateLimit (checkRateLimitAndThrow isBatch))) ∧
    (streamOpenAiImageQuery cfg clean false deltas img q =
        ([Event.rateLimit (checkRateLimitAndThrow none)],
          Except.error QueryError.rateLimited) ∧
      generateOpenAiImageQuery cfg clean false txt img q isBatch =
        ([Event.rateLimit (checkRateLimitAndThrow isBatch)],
          Except.error QueryError.rateLimited) ∧
      generateOpenAiImageObjectQuery cfg clean false obj img q isBatch =
        ([Event.rateLimit (checkRateLimitAndThrow isBatch)],
          Except.error QueryError.rateLimited)) ∧
    ((streamOpenAiImageQuery cfg clean false deltas img q).1.filter Event.isProviderCall = [] ∧
      (generateOpenAiImageQuery cfg clean false txt img q isBatch).1.filter
        Event.isProviderCall = [] ∧
      (generateOpenAiImageObjectQuery cfg clean false obj img q isBatch).1.filter
        Event.isProviderCall = []) := by
  refine ⟨⟨?_, ?_, ?_⟩, ⟨?_, ?_, ?_⟩, ?_, ?_, ?_⟩
  · cases rlOk <;> rcases hg : getImageTextArgs cfg img q with _ | args <;>
      simp [streamOpenAiImageQuery, hg]
  · cases rlOk <;> rcases hg : getImageTextArgs cfg img q with _ | args <;>
      simp [generateOpenAiImageQuery, hg]
  · cases rlOk <;> rcases hg : aiClient cfg with _ | c <;>
      simp [generateOpenAiImageObjectQuery, hg]
  · simp [streamOpenAiImageQuery]
  · simp [generateOpenAiImageQuery]
  · simp [generateOpenAiImageObjectQuery]
  · simp [streamOpenAiImageQuery, Event.isProviderCall]
  · simp [generateOpenAiImageQuery, Event.isProviderCall]
  · simp [generateOpenAiImageObjectQuery, Event.isProviderCall]

/-- Claim C4: in streaming mode `cleanUpAiTextResponse` (the `clean`
collaborator) is applied to every text fragment pushed to the streamable
value, and in structured-object mode it is applied to every value of the
returned object. -/
theorem C4_cleanup_coverage (cfg : Config) (clean : String → String)
    (deltas : List String) (obj : Option (List (String × String)))
    (img q : String) (isBatch : Option Bool) (c : ClientHandle)
    (h : aiClient cfg = some c) :
    (streamOpenAiImageQuery cfg clean true deltas img q).2 =
      Except.ok ⟨"", deltas.map clean, true⟩ ∧
    (∀ up ∈ deltas.map clean, ∃ d ∈ deltas, up = clean d) ∧
    (generateOpenAiImageObjectQuery cfg clean true obj img q isBatch).2 =
      Except.ok ((obj.getD []).map (fun kv => (kv.1, clean kv.2))) ∧
    (∀ kv ∈ (obj.getD []).map (fun kv => (kv.1, clean kv.2)),
      ∃ v, (kv.1, v) ∈ obj.getD [] ∧ kv.2 = clean v) := by
  refine ⟨?_, ?_, ?_, ?_⟩
  · simp [streamOpenAiImageQuery, getImageTextArgs, h]
  · intro up hup
    obtain ⟨d, hd, he⟩ := List.mem_map.mp hup
    exact ⟨d, hd, he.symm⟩
  · simp [generateOpenAiImageObjectQuery, h]
  · intro kv hkv
    obtain ⟨kv0, hkv0, he⟩ := List.mem_map.mp hkv
    subst he
    exact ⟨kv0.2, hkv0, rfl⟩

/-- Witness for C4 at an OpenAI-only configuration with one delta and one
object entry. -/
theorem C4_witness :
    aiClient ⟨none, some "sk", none, none⟩ = some ⟨ClientKind.openaiClient, "sk", none⟩ ∧
    (streamOpenAiImageQuery ⟨none, some "sk", none, none⟩ id true ["d1", "d2"] "i" "q").2 =
      Except.ok ⟨"", ["d1", "d2"].map id, true⟩ ∧
    (generateOpenAiImageObjectQuery ⟨none, some "sk", none, none⟩ id true
        (some [("title", "x")]) "i" "q" none).2 =
      Except.ok (((some [("title", "x")] : Option (List (String × String))).getD []).map
        (fun kv => (kv.1, id kv.2))) :=
  ⟨by decide,
   (C4_cleanup_coverage ⟨none, some "sk", none, none⟩ id ["d1", "d2"]
      (some [("title", "x")]) "i" "q" none ⟨ClientKind.openaiClient, "sk", none⟩
      (by decide)).1,
   (C4_cleanup_coverage ⟨none, some "sk", none, none⟩ id ["d1", "d2"]
      (some [("title", "x")]) "i" "q" none ⟨ClientKind.openaiClient, "sk", none⟩
      (by decide)).2.2.1⟩

/-- Claim C9: when a provider is configured and the schema-constrained call
resolves with a null or undefined object, `generateOpenAiImageObjectQuery`
resolves to the empty object (the `result.object` default-to-empty guard)
rather than throwing or returning null. -/
theorem C9_null_object_empty (cfg : Config) (clean : String → String)
    (img q : String) (isBatch : Option Bool) (c : ClientHandle)
    (h : aiClient cfg = some c) :
    (generateOpenAiImageObjectQuery cfg clean true none img q isBatch).2 =
      Except.ok [] := by
  simp [generateOpenAiImageObjectQuery, h]

/-- Witness for C9 at a DeepSeek-only configuration. -/
theorem C9_witness :
    aiClient ⟨none, none, some "dk", some "http://d/v1"⟩ =
      some ⟨ClientKind.deepseekClient, "dk", some "http://d/v1"⟩ ∧
    (generateOpenAiImageObjectQuery ⟨none, none, some "dk", some "http://d/v1"⟩ id true
        none "i" "q" (some true)).2 = Except.ok [] :=
  ⟨by decide,
   C9_null_object_empty ⟨none, none, some "dk", some "http://d/v1"⟩ id "i" "q" (some true)
     ⟨ClientKind.deepseekClient, "dk", some "http://d/v1"⟩ (by decide)⟩

/-- Claim C10: every operation (including `testOpenAiConnection`) passes
the rate limiter the fixed identifier `openai-image-query`; the token
budget (`tokens: 1200, duration: '1d'`) is attached exactly when the
caller passes `isBatch` as true, so streaming and test-connection calls
never attach a budget. -/
theorem C10_rate_limit_parameterization (cfg : Config) (clean : String → String)
    (rlOk : Bool) (deltas : List String) (txt : String)
    (obj : Option (List (String × String))) (img q : String) (isBatch : Option Bool)
    (resp : String) :
    (streamOpenAiImageQuery cfg clean rlOk deltas img q).1.head? =
      some (Event.rateLimit ⟨"openai-image-query", none, none⟩) ∧
    (testOpenAiConnection cfg rlOk resp).1.head? =
      some (Event.rateLimit ⟨"openai-image-query", none, none⟩) ∧
    (generateOpenAiImageQuery cfg clean rlOk txt img q isBatch).1.head? =
      some (Event.rateLimit (checkRateLimitAndThrow isBatch)) ∧
    (generateOpenAiImageObjectQuery cfg clean rlOk obj img q isBatch).1.head? =
      some (Event.rateLimit (checkRateLimitAndThrow isBatch)) ∧
    (checkRateLimitAndThrow isBatch).identifier = "openai-image-query" ∧
    ((checkRateLimitAndThrow isBatch).tokens = some 1200 ∧
        (checkRateLimitAndThrow isBatch).duration = some "1d" ↔ isBatch = some true) ∧
    checkRateLimitAndThrow none = ⟨"openai-image-query", none, none⟩ := by
  refine ⟨?_, ?_, ?_, ?_, ?_, ?_, rfl⟩
  · cases rlOk <;> rcases hg : getImageTextArgs cfg img q with _ | args <;>
      simp [streamOpenAiImageQuery, hg, checkRateLimitAndThrow]
  · cases rlOk <;> rcases hg : aiClient cfg with _ | c <;>
      simp [testOpenAiConnection, hg, checkRateLimitAndThrow]
  · cases rlOk <;> rcases hg : getImageTextArgs cfg img q with _ | args <;>
      simp [generateOpenAiImageQuery, hg]
  · cases rlOk <;> rcases hg : aiClient cfg with _ | c <;>
      simp [generateOpenAiImageObjectQuery, hg]
  · rcases isBatch with _ | b
    · rfl
    · cases b <;> rfl
  · rcases isBatch with _ | b
    · simp [checkRateLimitAndThrow]
    · cases b <;> simp [checkRateLimitAndThrow]

/-- Claim C5: for every image input with a data-URL prefix, the image
segment placed in the request descriptor (by `getImageTextArgs` and by the
structured-object path) is the input with that prefix removed via
`removeBase64Prefix`; the text prompt is passed through unchanged. -/
theorem C5_data_url_stripped (cfg : Config) (c : ClientHandle)
    (clean : String → String) (obj : Option (List (String × String)))
    (mime rest : List Char) (q : String) (isBatch : Option Bool)
    (hc : aiClient cfg = some c) (hm : mime ≠ [])
    (hlow : ∀ ch ∈ mime, isAsciiLower ch = true) :
    removeBase64Prefix (String.mk (dataImageMarkL ++ (mime ++ (base64MarkL ++ rest)))) =
      String.mk rest ∧
    getImageTextArgs cfg (String.mk (dataImageMarkL ++ (mime ++ (base64MarkL ++ rest)))) q =
      some { model := ⟨c, MODEL cfg⟩,
             messages := [⟨"user",
               [ContentPart.text q, ContentPart.image (String.mk rest)]⟩] } ∧
    (generateOpenAiImageObjectQuery cfg clean true obj
        (String.mk (dataImageMarkL ++ (mime ++ (base64MarkL ++ rest)))) q isBatch).1 =
      [Event.rateLimit (checkRateLimitAndThrow isBatch),
       Event.provider (ProviderCall.genObject
         { model := ⟨c, MODEL cfg⟩,
           messages := [⟨"user",
             [ContentPart.text q, ContentPart.image (String.mk rest)]⟩] })] := by
  have hstrip : removeBase64Prefix
      (String.mk (dataImageMarkL ++ (mime ++ (base64MarkL ++ rest)))) = String.mk rest := by
    unfold removeBase64Prefix
    rw [show (String.mk (dataImageMarkL ++ (mime ++ (base64MarkL ++ rest)))).data =
      dataImageMarkL ++ (mime ++ (base64MarkL ++ rest)) from rfl]
    rw [stripDataUrl_append hm hlow]
  refine ⟨hstrip, ?_, ?_⟩
  · unfold getImageTextArgs imageTextMessages
    rw [hc, hstrip]
  · unfold generateOpenAiImageObjectQuery imageTextMessages
    rw [hc, hstrip]
    simp

/-- Witness for C5: the jpeg data-URL prefix is stripped at an OpenAI-only
configuration. -/
theorem C5_witness :
    removeBase64Prefix (String.mk (dataImageMarkL ++
      (['j', 'p', 'e', 'g'] ++ (base64MarkL ++ ['A', 'B'])))) =
      String.mk ['A', 'B'] ∧
    getImageTextArgs ⟨none, some "sk", none, none⟩
        (String.mk (dataImageMarkL ++ (['j', 'p', 'e', 'g'] ++ (base64MarkL ++ ['A', 'B'])))) "q" =
      some { model := ⟨⟨ClientKind.openaiClient, "sk", none⟩,
               MODEL ⟨none, some "sk", none, none⟩⟩,
             messages := [⟨"user",
               [ContentPart.text "q", ContentPart.image (String.mk ['A', 'B'])]⟩] } :=
  ⟨(C5_data_url_stripped ⟨none, some "sk", none, none⟩ ⟨ClientKind.openaiClient, "sk", none⟩
      id none ['j', 'p', 'e', 'g'] ['A', 'B'] "q" none (by decide) (by decide) (by decide)).1,
   (C5_data_url_stripped ⟨none, some "sk", none, none⟩ ⟨ClientKind.openaiClient, "sk", none⟩
      id none ['j', 'p', 'e', 'g'] ['A', 'B'] "q" none (by decide) (by decide) (by decide)).2.1⟩

/-- Claim C6: a malformed provider base URL (missing protocol or failing
URL parsing) is logged as a warning and treated exactly as an absent URL:
provider selection and all query operations behave as if the URL were not
configured, and no query call fails because of it. -/
theorem C6_malformed_url_as_absent (cfg : Config) (u : String)
    (clean : String → String) (rlOk : Bool) (deltas : List String) (txt : String)
    (obj : Option (List (String × String))) (img q : String) (isBatch : Option Bool)
    (resp : String)
    (hu : u.data ≠ []) (hp : parseURL u = none) :
    (∀ prov, ∃ w, normalizeBaseUrl (some u) prov = (none, [w])) ∧
    aiClient { cfg with DEEPSEEK_BASE_URL := some u } =
      aiClient { cfg with DEEPSEEK_BASE_URL := none } ∧
    MODEL { cfg with DEEPSEEK_BASE_URL := some u } =
      MODEL { cfg with DEEPSEEK_BASE_URL := none } ∧
    aiClient { cfg with OPENAI_BASE_URL := some u } =
      aiClient { cfg with OPENAI_BASE_URL := none } ∧
    MODEL { cfg with OPENAI_BASE_URL := some u } =
      MODEL { cfg with OPENAI_BASE_URL := none } ∧
    (streamOpenAiImageQuery { cfg with DEEPSEEK_BASE_URL := some u } clean rlOk deltas img q =
        streamOpenAiImageQuery { cfg with DEEPSEEK_BASE_URL := none } clean rlOk deltas img q ∧
      generateOpenAiImageQuery { cfg with DEEPSEEK_BASE_URL := some u } clean rlOk txt img q isBatch =
        generateOpenAiImageQuery { cfg with DEEPSEEK_BASE_URL := none } clean rlOk txt img q isBatch ∧
      generateOpenAiImageObjectQuery { cfg with DEEPSEEK_BASE_URL := some u } clean rlOk obj img q isBatch =
        generateOpenAiImageObjectQuery { cfg with DEEPSEEK_BASE_URL := none } clean rlOk obj img q isBatch ∧
      testOpenAiConnection { cfg with DEEPSEEK_BASE_URL := some u } rlOk resp =
        testOpenAiConnection { cfg with DEEPSEEK_BASE_URL := none } rlOk resp) ∧
    (streamOpenAiImageQuery { cfg with OPENAI_BASE_URL := some u } clean rlOk deltas img q =
        streamOpenAiImageQuery { cfg with OPENAI_BASE_URL := none } clean rlOk deltas img q ∧
      generateOpenAiImageQuery { cfg with OPENAI_BASE_URL := some u } clean rlOk txt img q isBatch =
        generateOpenAiImageQuery { cfg with OPENAI_BASE_URL := none } clean rlOk txt img q isBatch ∧
      generateOpenAiImageObjectQuery { cfg with OPENAI_BASE_URL := some u } clean rlOk obj img q isBatch =
        generateOpenAiImageObjectQuery { cfg with OPENAI_BASE_URL := none } clean rlOk obj img q isBatch ∧
      testOpenAiConnection { cfg with OPENAI_BASE_URL := some u } rlOk resp =
        testOpenAiConnection { cfg with OPENAI_BASE_URL := none } rlOk resp) := by
  have hnd1 : normalizedDeepseekBaseUrl { cfg with DEEPSEEK_BASE_URL := some u } = none :=
    normalizeBaseUrl_parse_none (some Provider.deepseek) hp
  have hno1 : normalizedOpenaiBaseUrl { cfg with OPENAI_BASE_URL := some u } = none :=
    normalizeBaseUrl_parse_none (some Provider.openai) hp
  have hAMd := @aiClient_congr { cfg with DEEPSEEK_BASE_URL := some u }
    { cfg with DEEPSEEK_BASE_URL := none } rfl rfl rfl (hnd1.trans rfl)
  have hAMo := @aiClient_congr { cfg with OPENAI_BASE_URL := some u }
    { cfg with OPENAI_BASE_URL := none } rfl rfl (hno1.trans rfl) rfl
  exact ⟨fun prov => normalizeBaseUrl_parse_none_warn prov hu hp,
    hAMd.1, hAMd.2, hAMo.1, hAMo.2,
    ops_congr hAMd.1 hAMd.2 clean rlOk deltas txt obj img q isBatch resp,
    ops_congr hAMo.1 hAMo.2 clean rlOk deltas txt obj img q isBatch resp⟩

/-- Witness for C6 at the protocol-less URL `deepseek.com`. -/
theorem C6_witness :
    (∃ w, normalizeBaseUrl (some "deepseek.com") (some Provider.deepseek) = (none, [w])) ∧
    aiClient ⟨none, none, some "dk", some "deepseek.com"⟩ =
      aiClient ⟨none, none, some "dk", none⟩ :=
  ⟨(C6_malformed_url_as_absent ⟨none, none, some "dk", none⟩ "deepseek.com"
      id true [] "" none "i" "q" none "r" (by decide) (by decide)).1 (some Provider.deepseek),
   (C6_malformed_url_as_absent ⟨none, none, some "dk", none⟩ "deepseek.com"
      id true [] "" none "i" "q" none "r" (by decide) (by decide)).2.1⟩
